import Mathlib

/-!
Verification of the probabilistic record-linkage core and the eligibility
decision engine of the gun-registry-adapter repository.

The development shallowly embeds:
* `adapter/core/linkage.py` (`ProbabilisticLinkageEngine.link`,
  `_calculate_field_scores`, `_document_assumptions`),
* `adapter/core/engine.py` (`EligibilityEngine._make_decision`,
  `_calculate_age`),
* `adapter/core/model_b/rapidfuzz_matcher.py` (`RapidFuzzMatcher`).

Python floats are modelled as rationals.  The external `rapidfuzz` string
similarity primitives (`fuzz.token_set_ratio` and `fuzz.partial_ratio`, each
divided by 100 at every call site of the source) are abstracted as function
parameters, mirroring the way the engines are parametric in their injected
matcher; the library documents their range as `[0, 100]`, which after the
division becomes the `[0, 1]` hypothesis used below.  CPython string methods
(`str.strip`, `str.lower`, `str.upper`) and `datetime.strptime` are
re-implemented over character lists so that all definitions evaluate inside
the kernel.  Interpolated numeric values inside some log/rationale strings of
the source (for example the `:.2f`-formatted confidences) are elided from the
corresponding string constants; the words and the branching that selects the
strings are kept exactly.
-/

namespace GunRegistryAdapter

/-! ### Calendar dates

`datetime.strptime(dob, "%Y-%m-%d")` and `datetime` subtraction are modelled
with a proleptic Gregorian date type and its rata-die day number, the ordinal
underlying CPython `date` subtraction: `(now - dob_date).days` equals the
difference of the two rata-die numbers whenever `now` carries any time of day
on the evaluation date. -/

/-- Gregorian leap-year test (as in CPython `calendar.isleap`). -/
def isLeapYear (y : ℕ) : Bool :=
  y % 4 = 0 && (y % 100 ≠ 0 || y % 400 = 0)

/-- Number of days in month `m` of year `y`. -/
def daysInMonth (y m : ℕ) : ℕ :=
  if m = 2 then (if isLeapYear y then 29 else 28)
  else if m = 4 ∨ m = 6 ∨ m = 9 ∨ m = 11 then 30
  else 31

/-- A calendar date. -/
structure Date where
  year : ℕ
  month : ℕ
  day : ℕ
deriving DecidableEq

/-- Days in year `y` that precede the first day of month `m`. -/
def daysBeforeMonth (y m : ℕ) : ℕ :=
  ((List.range (m - 1)).map (fun i => daysInMonth y (i + 1))).sum

/-- Proleptic Gregorian day number (rata die); `⟨1,1,1⟩` maps to 1. -/
def Date.toRataDie (d : Date) : ℕ :=
  365 * (d.year - 1) + (d.year - 1) / 4 - (d.year - 1) / 100 + (d.year - 1) / 400
    + daysBeforeMonth d.year d.month + d.day

/-- Split a character list at every dash, keeping empty chunks,
like `str.split("-")`. -/
def splitOnDash : List Char → List (List Char)
  | [] => [[]]
  | c :: rest =>
    match splitOnDash rest with
    | [] => [[]]
    | g :: gs => if c = '-' then [] :: g :: gs else (c :: g) :: gs

/-- Decimal value of a digit list. -/
def digitsToNat (cs : List Char) : ℕ :=
  cs.foldl (fun n c => 10 * n + (c.toNat - 48)) 0

/-- A non-empty all-digit chunk parses to its decimal value. -/
def parseDigits (cs : List Char) : Option ℕ :=
  if cs ≠ [] ∧ cs.all Char.isDigit then some (digitsToNat cs) else none

/-- Parse a date string the way `datetime.strptime(s, "%Y-%m-%d")` accepts it:
a 4-digit year (CPython year range starts at 1), a 1–2 digit month in 1..12
and a 1–2 digit day valid for that month, separated by single dashes;
anything else raises `ValueError` (here: `none`). -/
def parseDate (s : String) : Option Date :=
  match splitOnDash s.data with
  | [ys, ms, ds] =>
    match parseDigits ys, parseDigits ms, parseDigits ds with
    | some y, some m, some d =>
      if ys.length = 4 ∧ ms.length ≤ 2 ∧ ds.length ≤ 2 ∧
          1 ≤ y ∧ 1 ≤ m ∧ m ≤ 12 ∧ 1 ≤ d ∧ d ≤ daysInMonth y m then
        some ⟨y, m, d⟩
      else none
    | _, _, _ => none
  | _ => none

/-! ### CPython string methods

`str.strip`, `str.lower` and `str.upper` re-implemented over character lists
(the inputs handled by the adapter are ASCII, where `Char.toLower`/`toUpper`
agree with CPython). -/

/-- CPython `str.strip()`: drop leading and trailing whitespace. -/
def pyStrip (s : String) : String :=
  ⟨((s.data.dropWhile Char.isWhitespace).reverse.dropWhile Char.isWhitespace).reverse⟩

/-- CPython `str.lower()`. -/
def pyLower (s : String) : String := ⟨s.data.map Char.toLower⟩

/-- CPython `str.upper()`. -/
def pyUpper (s : String) : String := ⟨s.data.map Char.toUpper⟩

/-! ### RapidFuzzMatcher (`adapter/core/model_b/rapidfuzz_matcher.py`)

The two `rapidfuzz` scoring algorithms used by the adapter, abstracted as
parameters (each stands for the library call already divided by `100.0`). -/

/-- The external `rapidfuzz` primitives: `substring_ratio` stands for
`fuzz.partial_ratio / 100` and `token_set_ratio` for
`fuzz.token_set_ratio / 100`. -/
structure FuzzPrimitives where
  token_set_ratio : String → String → ℚ
  substring_ratio : String → String → ℚ

/-- The range guarantee of the `rapidfuzz` ratios: every score lies in
`[0, 1]` after the division by 100. -/
def FuzzPrimitives.InRange (fz : FuzzPrimitives) : Prop :=
  (∀ s t, 0 ≤ fz.token_set_ratio s t ∧ fz.token_set_ratio s t ≤ 1) ∧
  (∀ s t, 0 ≤ fz.substring_ratio s t ∧ fz.substring_ratio s t ≤ 1)

/-- Embeds `RapidFuzzMatcher.match_score`: `token_set_ratio` on the lower-cased
strings, `0.0` when either side is empty. -/
def match_score (fz : FuzzPrimitives) (str1 str2 : String) : ℚ :=
  if str1 = "" ∨ str2 = "" then 0
  else fz.token_set_ratio (pyLower str1) (pyLower str2)

/-- Embeds `RapidFuzzMatcher.match_score_partial` of the source: `partial_ratio` on
the lower-cased strings, `0.0` when either side is empty. -/
def match_score_substring (fz : FuzzPrimitives) (str1 str2 : String) : ℚ :=
  if str1 = "" ∨ str2 = "" then 0
  else fz.substring_ratio (pyLower str1) (pyLower str2)

/-- Payload of the `FuzzyMatchAmbiguousError` raised by `fuzzy_match`. -/
structure AmbiguousMatchError where
  candidates : List String
  confidences : List ℚ
deriving DecidableEq

/-- The `matches` list built by `RapidFuzzMatcher.fuzzy_match` before sorting:
each candidate is scored with `token_set_ratio` on the lower-cased strings and
kept (in input order) exactly when the score reaches `threshold`. -/
def matchesList (fz : FuzzPrimitives) (query : String) (candidates : List String)
    (threshold : ℚ) : List (String × ℚ) :=
  candidates.filterMap (fun c =>
    let score := fz.token_set_ratio (pyLower query) (pyLower c)
    if threshold ≤ score then some (c, score) else none)

/-- The `matches` list after the in-place `matches.sort(key=lambda x: x[1],
reverse=True)` of the source: a stable descending sort by score (equal scores
keep input order, as CPython sort guarantees). -/
def sortedMatches (fz : FuzzPrimitives) (query : String)
    (candidates : List String) (threshold : ℚ) : List (String × ℚ) :=
  (matchesList fz query candidates threshold).mergeSort
    (fun p q => decide (q.2 ≤ p.2))

/-- Embeds `RapidFuzzMatcher.fuzzy_match`: empty query or empty candidate list
returns `[]`; otherwise the thresholded matches are stable-sorted descending
by score and a `FuzzyMatchAmbiguousError` is raised when the number of
matches scoring strictly above `0.8` exceeds `ambiguity_threshold`
(default 10). -/
def fuzzy_match (fz : FuzzPrimitives) (ambiguity_threshold : ℕ)
    (query : String) (candidates : List String) (threshold : ℚ) :
    Except AmbiguousMatchError (List (String × ℚ)) :=
  if query = "" ∨ candidates = [] then .ok []
  else
    let high := (sortedMatches fz query candidates threshold).filter
      (fun m => decide ((0.8 : ℚ) < m.2))
    if ambiguity_threshold < high.length then
      .error ⟨high.map Prod.fst, high.map Prod.snd⟩
    else .ok (sortedMatches fz query candidates threshold)

/-! ### Records and per-field scores (`adapter/core/linkage.py`) -/

/-- An applicant data map or a NICS candidate record.  The source passes
these as `Dict[str, Any]`; only the keys read by the core are modelled, each
as `Option String` because `dict.get` may find the key absent. -/
structure Record where
  name : Option String := none
  dob : Option String := none
  state : Option String := none
  address : Option String := none
  outcome : Option String := none
deriving DecidableEq

/-- The field-score dictionary produced by
`ProbabilisticLinkageEngine._calculate_field_scores`: it always carries
exactly the four keys `name`, `dob`, `state`, `address`. -/
structure FieldScores where
  name : ℚ
  dob : ℚ
  state : ℚ
  address : ℚ
deriving DecidableEq

/-- Embeds `ProbabilisticLinkageEngine._calculate_field_scores`.  Name: fuzzy
`match_score` of the stripped strings; DOB: exact string equality of the
stripped strings, `1.0` or `0.0`; state: exact equality after strip and
upper-case; address: `match_score_partial` of the stripped strings.  A field
blank (after strip) on either side scores `0.0`. -/
def calculate_field_scores (fz : FuzzPrimitives) (applicant record : Record) :
    FieldScores :=
  let applicant_name := pyStrip (applicant.name.getD "")
  let record_name := pyStrip (record.name.getD "")
  let name_score :=
    if applicant_name ≠ "" ∧ record_name ≠ "" then
      match_score fz applicant_name record_name
    else 0
  let applicant_dob := pyStrip (applicant.dob.getD "")
  let record_dob := pyStrip (record.dob.getD "")
  let dob_score :=
    if applicant_dob ≠ "" ∧ record_dob ≠ "" then
      (if applicant_dob = record_dob then 1 else 0)
    else 0
  let applicant_state := pyUpper (pyStrip (applicant.state.getD ""))
  let record_state := pyUpper (pyStrip (record.state.getD ""))
  let state_score :=
    if applicant_state ≠ "" ∧ record_state ≠ "" then
      (if applicant_state = record_state then 1 else 0)
    else 0
  let applicant_address := pyStrip (applicant.address.getD "")
  let record_address := pyStrip (record.address.getD "")
  let address_score :=
    if applicant_address ≠ "" ∧ record_address ≠ "" then
      match_score_substring fz applicant_address record_address
    else 0
  { name := name_score, dob := dob_score, state := state_score,
    address := address_score }

/-- The weighted composite score computed inside `link`:
`0.4*name + 0.3*dob + 0.2*state + 0.1*address`. -/
def compositeScore (fz : FuzzPrimitives) (applicant record : Record) : ℚ :=
  let field_scores := calculate_field_scores fz applicant record
  0.4 * field_scores.name + 0.3 * field_scores.dob +
    0.2 * field_scores.state + 0.1 * field_scores.address

/-! ### The linkage engine (`ProbabilisticLinkageEngine.link`) -/

/-- The three thresholds the engine reads from `settings` at construction
time, with their defaults (`linkage_confidence_threshold`,
`linkage_manual_review_min`, `linkage_manual_review_max`). -/
structure LinkageConfig where
  threshold : ℚ := 0.7
  manual_review_min : ℚ := 0.7
  manual_review_max : ℚ := 0.9
deriving DecidableEq

/-- The `LinkageResult` dataclass (metadata and timestamp bookkeeping
omitted).  `field_scores = none` models the empty dictionary. -/
structure LinkageResult where
  matched : Bool
  confidence : ℚ
  field_scores : Option FieldScores
  assumptions : List String
  requires_review : Bool
  best_match : Option Record
deriving DecidableEq

/-- State of the best-match scan: `(best_match, best_score,
best_field_scores)`, initialised to `(None, 0.0, {})`. -/
abbrev ScanState := Option Record × ℚ × Option FieldScores

/-- One iteration of the scan loop in `link`: keep the candidate whose
composite score strictly exceeds the best seen so far. -/
def scanStep (fz : FuzzPrimitives) (applicant : Record) (acc : ScanState)
    (record : Record) : ScanState :=
  if acc.2.1 < compositeScore fz applicant record then
    (some record, compositeScore fz applicant record,
      some (calculate_field_scores fz applicant record))
  else acc

/-- The full scan over the pool. -/
def poolScan (fz : FuzzPrimitives) (applicant : Record)
    (nics_records : List Record) : ScanState :=
  nics_records.foldl (scanStep fz applicant) (none, 0, none)

/-- Embeds `ProbabilisticLinkageEngine._document_assumptions` (the `:.2f` and
`{self.threshold}` style numeric interpolations are elided from the constant
strings; the conditions selecting each string are kept). -/
def document_assumptions (applicant : Record) (record : Option Record)
    (field_scores : Option FieldScores) : List String :=
  let base := [
    "Name matching uses token_set_ratio to handle word order variations",
    "DOB requires exact match (no fuzzy matching on dates for safety)",
    "Confidence threshold configurable via LINKAGE_CONFIDENCE_THRESHOLD env var",
    "Weights: name=40%, DOB=30%, state=20%, address=10% (tunable based on field reliability)"]
  let applicant_missing :=
    (if applicant.name.getD "" = "" then ["name (applicant)"] else []) ++
    (if applicant.dob.getD "" = "" then ["DOB (applicant)"] else []) ++
    (if applicant.state.getD "" = "" then ["state (applicant)"] else []) ++
    (if applicant.address.getD "" = "" then ["address (applicant)"] else [])
  let missing_fields := applicant_missing ++
    (match record with
     | none => []
     | some r =>
       (if r.name.getD "" = "" then ["name (NICS record)"] else []) ++
       (if r.dob.getD "" = "" then ["DOB (NICS record)"] else []) ++
       (if r.state.getD "" = "" then ["state (NICS record)"] else []) ++
       (if r.address.getD "" = "" then ["address (NICS record)"] else []))
  let with_missing := base ++
    (if missing_fields ≠ [] then
      ["Missing fields (scored as 0.0): " ++ String.intercalate ", " missing_fields]
    else [])
  let with_low_name := with_missing ++
    (if (match field_scores with | none => 0 | some s => s.name) < 0.5 then
      ["Low name match score - possible name variation or different person"]
    else [])
  let dob_fs : ℚ := match field_scores with | none => 0 | some s => s.dob
  with_low_name ++
    (if dob_fs = 0 ∧
        applicant.dob.getD "" ≠ "" ∧
        (match record with | none => "" | some r => r.dob.getD "") ≠ "" then
      ["DOB mismatch: applicant DOB does not match NICS record"]
    else [])

/-- Embeds `ProbabilisticLinkageEngine.link`.  Empty pool: a fixed no-match result.
Otherwise: scan the whole pool for the strictly-best composite score, then
`matched = best_score ≥ threshold`, `requires_review` when the best score
falls in `[manual_review_min, manual_review_max)` or more than one pool
record has a name field score above `0.8`, and `best_match` is the scanned
best only when `matched`. -/
def link (fz : FuzzPrimitives) (cfg : LinkageConfig) (applicant : Record)
    (nics_records : List Record) : LinkageResult :=
  if nics_records = [] then
    { matched := false, confidence := 0, field_scores := none,
      assumptions := ["No NICS records available for matching"],
      requires_review := false, best_match := none }
  else
    let scan := poolScan fz applicant nics_records
    let best_match := scan.1
    let best_score := scan.2.1
    let best_field_scores := scan.2.2
    let matched := decide (cfg.threshold ≤ best_score)
    let requires_review := decide
      ((cfg.manual_review_min ≤ best_score ∧ best_score < cfg.manual_review_max) ∨
        1 < (nics_records.filter
          (fun r => decide (0.8 < (calculate_field_scores fz applicant r).name))).length)
    { matched := matched, confidence := best_score,
      field_scores := best_field_scores,
      assumptions := document_assumptions applicant best_match best_field_scores,
      requires_review := requires_review,
      best_match := if matched then best_match else none }

/-! ### The eligibility engine (`adapter/core/engine.py`) -/

/-- The three decision outcomes. -/
inductive EligibilityDecision where
  | APPROVED
  | DENIED
  | MANUAL_REVIEW
deriving DecidableEq

/-- Model A output (`OCRResult`; metadata and timestamp omitted). -/
structure OCRResult where
  text_fields : Record
  confidence : ℚ
  quality_score : ℚ
  tamper_detected : Bool
deriving DecidableEq

/-- Model B output (`RiskAssessment`; metadata and timestamp omitted). -/
structure RiskAssessment where
  risk_score : ℚ
  risk_factors : List String
  confidence : ℚ
  requires_manual_review : Bool
deriving DecidableEq

/-- The tuple returned by `EligibilityEngine._make_decision`:
`(decision, confidence, rationale, requires_manual_review)`. -/
structure DecisionOutput where
  decision : EligibilityDecision
  confidence : ℚ
  rationale : List String
  requires_manual_review : Bool
deriving DecidableEq

/-- Embeds `EligibilityEngine._calculate_age`: `None` for a missing or empty DOB,
`None` when `strptime` raises, otherwise `(now - dob_date).days // 365`
(floor division; `.days` is the rata-die difference). -/
def calculate_age (dob : Option String) (today : Date) : Option ℤ :=
  match dob with
  | none => none
  | some s =>
    if s = "" then none
    else
      match parseDate s with
      | none => none
      | some d => some (((today.toRataDie : ℤ) - (d.toRataDie : ℤ)).fdiv 365)

/-- Rule 4 of `_make_decision` (the NICS-outcome rule): either an early
`DENIED` return (`inr`) or the updated rationale list and review flag
(`inl`).  The rule fires only when `matched` is true and `best_match` is a
present, non-empty record (Python dict truthiness). -/
def linkage_rule (overall_confidence : ℚ) (linkage_result : LinkageResult)
    (rationale : List String) (requires_review : Bool) :
    (List String × Bool) ⊕ DecisionOutput :=
  match linkage_result.matched, linkage_result.best_match with
  | true, some best =>
    let outcome := pyLower (best.outcome.getD "")
    if outcome = "denied" then
      .inr { decision := .DENIED, confidence := overall_confidence,
             rationale := rationale ++
               ["Background check failed: denied in NICS records"],
             requires_manual_review := false }
    else if outcome = "approved" then
      .inl (rationale ++ ["Background check passed"], requires_review)
    else
      .inl (rationale ++ ["Background check result unclear: " ++ outcome], true)
  | _, _ => .inl (rationale, requires_review)

/-- Rules 3–7 of `_make_decision` (everything after the OCR-confidence and
age rules), with the rationale list and review flag accumulated so far. -/
def decide_after_age (risk_threshold : ℚ) (overall_confidence : ℚ)
    (ocr_result : OCRResult) (risk_assessment : RiskAssessment)
    (linkage_result : LinkageResult) (rationale : List String)
    (requires_review : Bool) : DecisionOutput :=
  -- Rule 3: high risk score (`settings.model_b_risk_threshold`, default 0.7)
  if risk_threshold < risk_assessment.risk_score then
    { decision := .DENIED, confidence := overall_confidence,
      rationale := rationale ++ risk_assessment.risk_factors,
      requires_manual_review := false }
  else
    -- Rule 4: NICS match outcome
    match linkage_rule overall_confidence linkage_result rationale requires_review with
    | .inr out => out
    | .inl (rationale', review') =>
      -- Rule 5: manual review flags
      let rationale'' := rationale' ++
        (if risk_assessment.requires_manual_review then
          ["Risk assessment flagged for manual review"] else []) ++
        (if linkage_result.requires_review then
          ["Linkage flagged for manual review (ambiguous match)"] else [])
      let review'' := review' || risk_assessment.requires_manual_review ||
        linkage_result.requires_review
      if ocr_result.tamper_detected then
        { decision := .MANUAL_REVIEW, confidence := overall_confidence,
          rationale := rationale'' ++ ["ID tampering detected"],
          requires_manual_review := true }
      -- Rule 6: any review flag set
      else if review'' then
        { decision := .MANUAL_REVIEW, confidence := overall_confidence,
          rationale := rationale'', requires_manual_review := true }
      -- Rule 7: default APPROVED
      else
        { decision := .APPROVED, confidence := overall_confidence,
          rationale := rationale'' ++ ["All checks passed"],
          requires_manual_review := false }

/-- Embeds `EligibilityEngine._make_decision`.  The overall confidence is the
weighted average computed once up front; the rules then run in order with
early returns: OCR confidence, age, risk score, linkage outcome, review
flags, tampering, default approval. -/
def make_decision (risk_threshold : ℚ) (today : Date) (ocr_result : OCRResult)
    (risk_assessment : RiskAssessment) (linkage_result : LinkageResult)
    (extracted_data : Record) : DecisionOutput :=
  let overall_confidence := 0.4 * ocr_result.confidence +
    0.4 * risk_assessment.confidence + 0.2 * linkage_result.confidence
  -- Rule 1: low OCR confidence
  if ocr_result.confidence < 0.5 then
    { decision := .MANUAL_REVIEW, confidence := overall_confidence,
      rationale := ["OCR confidence too low"], requires_manual_review := true }
  else
    -- Rule 2: age eligibility (must be 21+)
    match calculate_age extracted_data.dob today with
    | some age =>
      if age < 21 then
        { decision := .DENIED, confidence := overall_confidence,
          rationale := ["Age ineligible: " ++ toString age ++ " years old (must be 21+)"],
          requires_manual_review := false }
      else
        decide_after_age risk_threshold overall_confidence ocr_result
          risk_assessment linkage_result
          ["Age eligible: " ++ toString age ++ " years old"] false
    | none =>
      decide_after_age risk_threshold overall_confidence ocr_result
        risk_assessment linkage_result ["Age unknown (DOB not extracted)"] true

/-- The decision-relevant slice of the `EligibilityResult` dataclass built by
`assess_eligibility` from the `_make_decision` tuple. -/
structure EligibilityResult where
  decision : EligibilityDecision
  confidence : ℚ
  requires_manual_review : Bool
  decision_rationale : List String
deriving DecidableEq

/-- Step 4 of `EligibilityEngine.assess_eligibility`: the decision tuple from
`_make_decision` (evaluated on `extracted_data = ocr_result.text_fields`) is
copied field-by-field into the returned `EligibilityResult`.  The external
model calls producing `ocr_result` and `risk_assessment` are inputs here. -/
def eligibility_result (risk_threshold : ℚ) (today : Date)
    (ocr_result : OCRResult) (risk_assessment : RiskAssessment)
    (linkage_result : LinkageResult) : EligibilityResult :=
  let out := make_decision risk_threshold today ocr_result risk_assessment
    linkage_result ocr_result.text_fields
  { decision := out.decision, confidence := out.confidence,
    requires_manual_review := out.requires_manual_review,
    decision_rationale := out.rationale }

/-- Modelled from the spec (section 4.4, rule 2): the age in whole years
between a date of birth and the evaluation date, truncating the partial year
(one less than the year difference when the birthday has not yet occurred in
the evaluation year).  This is the specified age computation against which
`_calculate_age` is compared. -/
def wholeYearsBetween (dob today : Date) : ℤ :=
  (today.year : ℤ) - (dob.year : ℤ) -
    (if today.month < dob.month ∨ (today.month = dob.month ∧ today.day < dob.day)
      then 1 else 0)

/-! ### Helper lemmas about the decision evaluator -/

theorem linkage_rule_inr (ov : ℚ) (lk : LinkageResult) (rat : List String)
    (rev : Bool) (out : DecisionOutput)
    (h : linkage_rule ov lk rat rev = .inr out) :
    out.confidence = ov ∧ out.decision = .DENIED ∧
      out.requires_manual_review = false := by
  simp only [linkage_rule] at h
  split at h
  · split_ifs at h
    cases h
    exact ⟨rfl, rfl, rfl⟩
  · cases h

theorem decide_after_age_confidence (rt ov : ℚ) (ocr : OCRResult)
    (risk : RiskAssessment) (lk : LinkageResult) (rat : List String)
    (rev : Bool) :
    (decide_after_age rt ov ocr risk lk rat rev).confidence = ov := by
  simp only [decide_after_age]
  split
  · rfl
  · split
    · next out h => exact (linkage_rule_inr ov lk rat rev out h).1
    · split_ifs <;> rfl

theorem decide_after_age_review_iff (rt ov : ℚ) (ocr : OCRResult)
    (risk : RiskAssessment) (lk : LinkageResult) (rat : List String)
    (rev : Bool) :
    (decide_after_age rt ov ocr risk lk rat rev).requires_manual_review = true ↔
      (decide_after_age rt ov ocr risk lk rat rev).decision = .MANUAL_REVIEW := by
  simp only [decide_after_age]
  split
  · simp
  · split
    · next out h =>
      obtain ⟨-, hdec, hrev⟩ := linkage_rule_inr ov lk rat rev out h
      rw [hdec, hrev]
      simp
    · split_ifs <;> simp

theorem make_decision_confidence (rt : ℚ) (today : Date) (ocr : OCRResult)
    (risk : RiskAssessment) (lk : LinkageResult) (ex : Record) :
    (make_decision rt today ocr risk lk ex).confidence =
      0.4 * ocr.confidence + 0.4 * risk.confidence + 0.2 * lk.confidence := by
  simp only [make_decision]
  split
  · rfl
  · split
    · split_ifs
      · rfl
      · exact decide_after_age_confidence ..
    · exact decide_after_age_confidence ..

/-! ### Claim C1 -/

/-- C1: the decision rules run in strict order with short-circuiting.  For
every input whose perception confidence is at least 0.5 and whose DOB
computes to an age below 21, `_make_decision` returns `DENIED` with the
underage rationale — whatever the risk score, the linkage result, tampering
or review flags, since the age rule precedes the risk and linkage rules. -/
theorem age_rule_denies_under_21 (rt : ℚ) (today : Date) (ocr : OCRResult)
    (risk : RiskAssessment) (lk : LinkageResult) (ex : Record) (a : ℤ)
    (hconf : ¬ ocr.confidence < 0.5)
    (hage : calculate_age ex.dob today = some a) (ha : a < 21) :
    make_decision rt today ocr risk lk ex =
      { decision := .DENIED,
        confidence := 0.4 * ocr.confidence + 0.4 * risk.confidence +
          0.2 * lk.confidence,
        rationale := ["Age ineligible: " ++ toString a ++ " years old (must be 21+)"],
        requires_manual_review := false } := by
  simp only [make_decision, hage, if_neg hconf, if_pos ha]

/-- OCR result used to instantiate the decision-engine theorems. -/
def wOCR : OCRResult :=
  { text_fields := { dob := some "2010-01-01" }, confidence := 1,
    quality_score := 1, tamper_detected := false }

/-- Risk assessment used to instantiate the decision-engine theorems. -/
def wRisk : RiskAssessment :=
  { risk_score := 0, risk_factors := [], confidence := 1,
    requires_manual_review := false }

/-- Linkage result used to instantiate the decision-engine theorems. -/
def wLink : LinkageResult :=
  { matched := false, confidence := 0, field_scores := none, assumptions := [],
    requires_review := false, best_match := none }

/-- Witness for C1: a 14-year-old applicant with clean risk and linkage data
is denied by the age rule. -/
theorem age_rule_denies_under_21_witness :
    ¬ wOCR.confidence < 0.5 ∧
      calculate_age wOCR.text_fields.dob ⟨2024, 6, 1⟩ = some 14 ∧ (14 : ℤ) < 21 ∧
      make_decision 0.7 ⟨2024, 6, 1⟩ wOCR wRisk wLink wOCR.text_fields =
        { decision := .DENIED,
          confidence := 0.4 * wOCR.confidence + 0.4 * wRisk.confidence +
            0.2 * wLink.confidence,
          rationale := ["Age ineligible: " ++ toString (14 : ℤ) ++
            " years old (must be 21+)"],
          requires_manual_review := false } :=
  have h1 : ¬ wOCR.confidence < 0.5 := by norm_num [wOCR]
  have h2 : calculate_age wOCR.text_fields.dob ⟨2024, 6, 1⟩ = some 14 := by decide
  have h3 : (14 : ℤ) < 21 := by decide
  ⟨h1, h2, h3,
    age_rule_denies_under_21 0.7 ⟨2024, 6, 1⟩ wOCR wRisk wLink wOCR.text_fields
      14 h1 h2 h3⟩

/-! ### Claim C2 -/

/-- C2: for every (non-error) evaluation, the confidence of the returned
`EligibilityResult` is `0.4*perception + 0.4*risk + 0.2*linkage`, computed
once before any rule fires, hence identical on every terminating branch. -/
theorem eligibility_result_confidence (rt : ℚ) (today : Date)
    (ocr : OCRResult) (risk : RiskAssessment) (lk : LinkageResult) :
    (eligibility_result rt today ocr risk lk).confidence =
      0.4 * ocr.confidence + 0.4 * risk.confidence + 0.2 * lk.confidence := by
  simp only [eligibility_result]
  exact make_decision_confidence ..

/-! ### Claim C10 -/

/-- C10: on every input, the `requires_manual_review` flag returned by
`_make_decision` is true exactly when the decision is `MANUAL_REVIEW`; in
particular every `DENIED` and every `APPROVED` result carries a false
flag. -/
theorem make_decision_review_iff_manual (rt : ℚ) (today : Date)
    (ocr : OCRResult) (risk : RiskAssessment) (lk : LinkageResult)
    (ex : Record) :
    (make_decision rt today ocr risk lk ex).requires_manual_review = true ↔
      (make_decision rt today ocr risk lk ex).decision = .MANUAL_REVIEW := by
  simp only [make_decision]
  split
  · simp
  · split
    · split_ifs
      · simp
      · exact decide_after_age_review_iff ..
    · exact decide_after_age_review_iff ..

/-! ### Claim C8 -/

/-- C8 (code bug): `_calculate_age` computes `(now - dob).days // 365`, which
is not the number of whole years truncating partial years: evaluated on
2021-01-01, an applicant born 2000-01-06 has not yet turned 21 (whole years
= 20), but the accumulated leap days make the code return 21 — so the
underage rule wrongly lets a 20-year-old through. -/
theorem calculate_age_not_whole_years :
    calculate_age (some "2000-01-06") ⟨2021, 1, 1⟩ = some 21 ∧
      wholeYearsBetween ⟨2000, 1, 6⟩ ⟨2021, 1, 1⟩ = 20 := by
  constructor
  · decide
  · decide

/-! ### Helper lemmas about the linkage scan -/

theorem scanStep_score (fz : FuzzPrimitives) (a : Record) (acc : ScanState)
    (r : Record) :
    (scanStep fz a acc r).2.1 = max acc.2.1 (compositeScore fz a r) := by
  simp only [scanStep]
  split_ifs with h
  · exact (max_eq_right h.le).symm
  · exact (max_eq_left (not_lt.mp h)).symm

theorem scan_score_eq_foldl_max (fz : FuzzPrimitives) (a : Record) :
    ∀ (l : List Record) (acc : ScanState),
      (l.foldl (scanStep fz a) acc).2.1 =
        (l.map (compositeScore fz a)).foldl max acc.2.1 := by
  intro l
  induction l with
  | nil => intro acc; rfl
  | cons r t ih =>
    intro acc
    simp only [List.foldl_cons, List.map_cons, ih, scanStep_score]

theorem foldl_max_perm {l l' : List ℚ} (h : l.Perm l') :
    ∀ s : ℚ, l.foldl max s = l'.foldl max s := by
  induction h with
  | nil => intro s; rfl
  | cons x _ ih => intro s; simp only [List.foldl_cons]; exact ih _
  | swap x y t => intro s; rw [List.foldl_cons, List.foldl_cons,
      List.foldl_cons, List.foldl_cons, sup_right_comm]
  | trans _ _ ih1 ih2 => intro s; rw [ih1, ih2]

theorem scan_cases (fz : FuzzPrimitives) (a : Record) (l : List Record) :
    ∀ acc : ScanState,
      l.foldl (scanStep fz a) acc = acc ∨
      ∃ r ∈ l, (l.foldl (scanStep fz a) acc).1 = some r ∧
        (l.foldl (scanStep fz a) acc).2.1 = compositeScore fz a r ∧
        acc.2.1 < compositeScore fz a r := by
  induction l with
  | nil => intro acc; exact Or.inl rfl
  | cons r t ih =>
    intro acc
    simp only [List.foldl_cons]
    by_cases h : acc.2.1 < compositeScore fz a r
    · have hstep : scanStep fz a acc r =
          (some r, compositeScore fz a r, some (calculate_field_scores fz a r)) := by
        simp [scanStep, h]
      rw [hstep]
      rcases ih (some r, compositeScore fz a r,
          some (calculate_field_scores fz a r)) with h1 | ⟨r', hm, h1, h2, h3⟩
      · right
        exact ⟨r, List.mem_cons_self .., by rw [h1], by rw [h1], h⟩
      · right
        exact ⟨r', List.mem_cons_of_mem _ hm, h1, h2, lt_trans h h3⟩
    · have hstep : scanStep fz a acc r = acc := by simp [scanStep, h]
      rw [hstep]
      rcases ih acc with h1 | ⟨r', hm, h1, h2, h3⟩
      · exact Or.inl h1
      · exact Or.inr ⟨r', List.mem_cons_of_mem _ hm, h1, h2, h3⟩

theorem poolScan_spec (fz : FuzzPrimitives) (a : Record) (l : List Record) :
    poolScan fz a l = (none, 0, none) ∨
      ∃ r ∈ l, (poolScan fz a l).1 = some r ∧
        (poolScan fz a l).2.1 = compositeScore fz a r ∧
        0 < compositeScore fz a r :=
  scan_cases fz a l (none, 0, none)

theorem poolScan_score_perm (fz : FuzzPrimitives) (a : Record)
    {l l' : List Record} (h : l.Perm l') :
    (poolScan fz a l).2.1 = (poolScan fz a l').2.1 := by
  simp only [poolScan, scan_score_eq_foldl_max]
  exact foldl_max_perm (h.map _) 0

theorem link_confidence_eq (fz : FuzzPrimitives) (cfg : LinkageConfig)
    (a : Record) (l : List Record) (hl : l ≠ []) :
    (link fz cfg a l).confidence = (poolScan fz a l).2.1 := by
  simp [link, hl]

theorem link_best_match_eq (fz : FuzzPrimitives) (cfg : LinkageConfig)
    (a : Record) (l : List Record) (hl : l ≠ []) :
    (link fz cfg a l).best_match =
      if cfg.threshold ≤ (poolScan fz a l).2.1 then (poolScan fz a l).1
      else none := by
  simp [link, hl]

/-- A constant similarity primitive (used to instantiate theorems). -/
def halfFuzz : FuzzPrimitives :=
  { token_set_ratio := fun _ _ => 0.5, substring_ratio := fun _ _ => 0.5 }

/-- Similarity primitive scoring 1 on identical strings and 0 otherwise; it
agrees with the rapidfuzz ratios on pairs of identical strings (which score
100 there). -/
def eqFuzz : FuzzPrimitives :=
  { token_set_ratio := fun s t => if s = t then 1 else 0,
    substring_ratio := fun s t => if s = t then 1 else 0 }

theorem halfFuzz_inRange : halfFuzz.InRange := by
  constructor <;> intro s t <;> norm_num [halfFuzz]

theorem eqFuzz_inRange : eqFuzz.InRange := by
  constructor <;> intro s t <;> simp only [eqFuzz] <;> split_ifs <;> norm_num

/-! ### Claim C4 -/

/-- C4 (amended): for every positive configured match threshold,
`best_candidate` is non-null iff `matched` is true.  (At a non-positive
threshold the invariant fails, see the counterexample.) -/
theorem link_best_match_iff_matched (fz : FuzzPrimitives) (cfg : LinkageConfig)
    (a : Record) (l : List Record) (hthr : 0 < cfg.threshold) :
    (link fz cfg a l).best_match ≠ none ↔ (link fz cfg a l).matched = true := by
  by_cases hl : l = []
  · subst hl; simp [link]
  · have hmt : (link fz cfg a l).matched =
        decide (cfg.threshold ≤ (poolScan fz a l).2.1) := by simp [link, hl]
    rw [link_best_match_eq fz cfg a l hl, hmt]
    by_cases hm : cfg.threshold ≤ (poolScan fz a l).2.1
    · rw [if_pos hm]
      simp only [decide_eq_true_eq, hm, iff_true]
      rcases poolScan_spec fz a l with h0 | ⟨r, _, h1, _, _⟩
      · rw [h0] at hm
        exact absurd hm (not_le.mpr hthr)
      · rw [h1]; simp
    · rw [if_neg hm]
      simp [hm]

/-- Counterexample for C4 as stated: with the (configurable) match threshold
set to 0 and a pool holding one fully-blank record, the best score is 0, so
`matched` is true while `best_match` is null. -/
theorem link_best_match_iff_matched_cex :
    (link halfFuzz ⟨0, 0.7, 0.9⟩ {} [{}]).matched = true ∧
      (link halfFuzz ⟨0, 0.7, 0.9⟩ {} [{}]).best_match = none := by
  have hfs : calculate_field_scores halfFuzz {} {} = ⟨0, 0, 0, 0⟩ := by decide
  have hcomp : compositeScore halfFuzz {} {} = 0 := by
    norm_num [compositeScore, hfs]
  have hpool : poolScan halfFuzz {} [{}] = (none, 0, none) := by
    simp [poolScan, scanStep, hcomp]
  constructor
  · simp [link, hpool]
  · simp [link, hpool]

/-- Witness for C4: the default configuration has a positive threshold. -/
theorem link_best_match_iff_matched_witness :
    (0 : ℚ) < ({} : LinkageConfig).threshold ∧
      ((link halfFuzz {} {} [{}]).best_match ≠ none ↔
        (link halfFuzz {} {} [{}]).matched = true) :=
  have h : (0 : ℚ) < ({} : LinkageConfig).threshold := by norm_num [LinkageConfig.threshold]
  ⟨h, link_best_match_iff_matched halfFuzz {} {} [{}] h⟩

/-! ### Claim C3 -/

/-- C3 (amended): permuting the candidate pool never changes the reported
best composite score (unconditionally, ties included); and when at most one
pool record attains that best score the selected best candidate is also
unchanged.  (With a tie at the maximum the scan keeps the earliest
candidate, so a permutation can change the selection — see the
counterexample.) -/
theorem link_perm_invariant (fz : FuzzPrimitives) (cfg : LinkageConfig)
    (a : Record) {l l' : List Record} (hperm : l'.Perm l) :
    (link fz cfg a l').confidence = (link fz cfg a l).confidence ∧
      ((∀ r ∈ l, ∀ r' ∈ l,
          compositeScore fz a r = (link fz cfg a l).confidence →
          compositeScore fz a r' = (link fz cfg a l).confidence → r = r') →
        (link fz cfg a l').best_match = (link fz cfg a l).best_match) := by
  by_cases hl : l = []
  · subst hl
    rw [hperm.eq_nil]
    exact ⟨rfl, fun _ => rfl⟩
  · have hl' : l' ≠ [] := by
      intro h
      subst h
      exact hl hperm.symm.eq_nil
    have hs : (poolScan fz a l').2.1 = (poolScan fz a l).2.1 :=
      poolScan_score_perm fz a hperm
    refine ⟨?_, ?_⟩
    · rw [link_confidence_eq fz cfg a l hl, link_confidence_eq fz cfg a l' hl', hs]
    intro huniq
    rw [link_best_match_eq fz cfg a l hl, link_best_match_eq fz cfg a l' hl', hs]
    by_cases hm : cfg.threshold ≤ (poolScan fz a l).2.1
    · rw [if_pos hm, if_pos hm]
      rcases poolScan_spec fz a l with h0 | ⟨r, hmem, h1, h2, h3⟩
      · rcases poolScan_spec fz a l' with h0' | ⟨r', hmem', h1', h2', h3'⟩
        · rw [h0, h0']
        · rw [h0] at hs
          rw [h2'] at hs
          exact absurd (hs ▸ h3') (lt_irrefl 0)
      · rcases poolScan_spec fz a l' with h0' | ⟨r', hmem', h1', h2', h3'⟩
        · rw [h0'] at hs
          rw [h2] at hs
          exact absurd (hs.symm ▸ h3) (lt_irrefl 0)
        · have hcl : (link fz cfg a l).confidence = (poolScan fz a l).2.1 :=
            link_confidence_eq fz cfg a l hl
          have hr : compositeScore fz a r = (link fz cfg a l).confidence := by
            rw [hcl, h2]
          have hr' : compositeScore fz a r' = (link fz cfg a l).confidence := by
            rw [hcl, ← hs, h2']
          have : r' = r :=
            huniq r' (hperm.subset hmem') r hmem hr' hr
          rw [h1, h1', this]
    · rw [if_neg hm, if_neg hm]

/-- Applicant used in the tie-breaking counterexample. -/
def cexApplicant : Record :=
  { name := some "john doe", dob := some "1985-03-15", state := some "fl",
    address := some "123 main st" }

/-- Pool record identical to the applicant on all four matched fields, with
outcome approved. -/
def cexApproved : Record := { cexApplicant with outcome := some "approved" }

/-- Pool record identical to the applicant on all four matched fields, with
outcome denied — a distinct record with the same composite score. -/
def cexDenied : Record := { cexApplicant with outcome := some "denied" }

/-- Counterexample for C3 as stated: two distinct records (differing only in
their `outcome`) both score a perfect composite against the applicant; the
strict-maximum scan keeps whichever comes first, so swapping the pool order
changes the selected best candidate. -/
theorem link_perm_invariant_cex :
    ([cexDenied, cexApproved].Perm [cexApproved, cexDenied]) ∧
      (link eqFuzz {} cexApplicant [cexApproved, cexDenied]).best_match ≠
        (link eqFuzz {} cexApplicant [cexDenied, cexApproved]).best_match := by
  have hfsA : calculate_field_scores eqFuzz cexApplicant cexApproved =
      ⟨1, 1, 1, 1⟩ := by decide
  have hfsD : calculate_field_scores eqFuzz cexApplicant cexDenied =
      ⟨1, 1, 1, 1⟩ := by decide
  have hcompA : compositeScore eqFuzz cexApplicant cexApproved = 1 := by
    norm_num [compositeScore, hfsA]
  have hcompD : compositeScore eqFuzz cexApplicant cexDenied = 1 := by
    norm_num [compositeScore, hfsD]
  have hpool1 : poolScan eqFuzz cexApplicant [cexApproved, cexDenied] =
      (some cexApproved, 1, some (calculate_field_scores eqFuzz cexApplicant cexApproved)) := by
    norm_num [poolScan, scanStep, hcompA, hcompD]
  have hpool2 : poolScan eqFuzz cexApplicant [cexDenied, cexApproved] =
      (some cexDenied, 1, some (calculate_field_scores eqFuzz cexApplicant cexDenied)) := by
    norm_num [poolScan, scanStep, hcompA, hcompD]
  refine ⟨List.Perm.swap cexApproved cexDenied [], ?_⟩
  rw [link_best_match_eq eqFuzz {} cexApplicant [cexApproved, cexDenied] (by simp),
    link_best_match_eq eqFuzz {} cexApplicant [cexDenied, cexApproved] (by simp),
    hpool1, hpool2]
  norm_num [cexApproved, cexDenied, LinkageConfig.threshold]
  decide

/-- Pool record matching the applicant on no field: its composite score is
0, so the pool `[cexApproved, cexOther]` has a unique best record. -/
def cexOther : Record :=
  { name := some "someone else", outcome := some "denied" }

/-- Witness for C3: swapping a two-record pool whose best composite score is
attained uniquely leaves both the reported score and the selected best
candidate unchanged. -/
theorem link_perm_invariant_witness :
    ([cexOther, cexApproved].Perm [cexApproved, cexOther]) ∧
      ((link eqFuzz {} cexApplicant [cexOther, cexApproved]).confidence =
          (link eqFuzz {} cexApplicant [cexApproved, cexOther]).confidence ∧
        (link eqFuzz {} cexApplicant [cexOther, cexApproved]).best_match =
          (link eqFuzz {} cexApplicant [cexApproved, cexOther]).best_match) := by
  have hperm : [cexOther, cexApproved].Perm [cexApproved, cexOther] :=
    List.Perm.swap cexApproved cexOther []
  have hmain := link_perm_invariant eqFuzz {} cexApplicant hperm
  have hfsA : calculate_field_scores eqFuzz cexApplicant cexApproved =
      ⟨1, 1, 1, 1⟩ := by decide
  have hfsO : calculate_field_scores eqFuzz cexApplicant cexOther =
      ⟨0, 0, 0, 0⟩ := by decide
  have hcompA : compositeScore eqFuzz cexApplicant cexApproved = 1 := by
    norm_num [compositeScore, hfsA]
  have hcompO : compositeScore eqFuzz cexApplicant cexOther = 0 := by
    norm_num [compositeScore, hfsO]
  have hpool : poolScan eqFuzz cexApplicant [cexApproved, cexOther] =
      (some cexApproved, 1,
        some (calculate_field_scores eqFuzz cexApplicant cexApproved)) := by
    norm_num [poolScan, scanStep, hcompA, hcompO]
  have hconf : (link eqFuzz {} cexApplicant [cexApproved, cexOther]).confidence = 1 := by
    rw [link_confidence_eq eqFuzz {} cexApplicant [cexApproved, cexOther] (by simp),
      hpool]
  refine ⟨hperm, hmain.1, hmain.2 ?_⟩
  intro r hr r' hr' h1 h2
  rw [hconf] at h1 h2
  rcases List.mem_cons.mp hr with rfl | hr
  · rcases List.mem_cons.mp hr' with rfl | hr'
    · rfl
    · rw [List.mem_singleton] at hr'
      subst hr'
      rw [hcompO] at h2
      norm_num at h2
  · rw [List.mem_singleton] at hr
    subst hr
    rw [hcompO] at h1
    norm_num at h1

/-! ### Helper lemmas about field scores -/

theorem match_score_mem (fz : FuzzPrimitives) (hfz : fz.InRange)
    (s t : String) : 0 ≤ match_score fz s t ∧ match_score fz s t ≤ 1 := by
  simp only [match_score]
  split_ifs
  · norm_num
  · exact hfz.1 _ _

theorem match_score_substring_mem (fz : FuzzPrimitives) (hfz : fz.InRange)
    (s t : String) :
    0 ≤ match_score_substring fz s t ∧ match_score_substring fz s t ≤ 1 := by
  simp only [match_score_substring]
  split_ifs
  · norm_num
  · exact hfz.2 _ _

theorem pyUpper_empty_iff (s : String) : pyUpper s = "" ↔ s = "" := by
  cases s with
  | mk l =>
    cases l with
    | nil => exact ⟨fun _ => rfl, fun _ => rfl⟩
    | cons c cs =>
      constructor
      · intro h
        cases congrArg String.data h
      · intro h
        cases congrArg String.data h

theorem calculate_field_scores_bounds (fz : FuzzPrimitives) (hfz : fz.InRange)
    (a r : Record) :
    (0 ≤ (calculate_field_scores fz a r).name ∧
        (calculate_field_scores fz a r).name ≤ 1) ∧
      (0 ≤ (calculate_field_scores fz a r).dob ∧
        (calculate_field_scores fz a r).dob ≤ 1) ∧
      (0 ≤ (calculate_field_scores fz a r).state ∧
        (calculate_field_scores fz a r).state ≤ 1) ∧
      (0 ≤ (calculate_field_scores fz a r).address ∧
        (calculate_field_scores fz a r).address ≤ 1) := by
  simp only [calculate_field_scores]
  refine ⟨?_, ?_, ?_, ?_⟩
  · split_ifs
    · exact match_score_mem fz hfz ..
    · norm_num
  · split_ifs <;> norm_num
  · split_ifs <;> norm_num
  · split_ifs
    · exact match_score_substring_mem fz hfz ..
    · norm_num

theorem compositeScore_nonneg (fz : FuzzPrimitives) (hfz : fz.InRange)
    (a r : Record) : 0 ≤ compositeScore fz a r := by
  obtain ⟨hn, hd, hs, ha⟩ := calculate_field_scores_bounds fz hfz a r
  simp only [compositeScore]
  have c1 : (0:ℚ) ≤ 0.4 * (calculate_field_scores fz a r).name :=
    mul_nonneg (by norm_num) hn.1
  have c2 : (0:ℚ) ≤ 0.3 * (calculate_field_scores fz a r).dob :=
    mul_nonneg (by norm_num) hd.1
  have c3 : (0:ℚ) ≤ 0.2 * (calculate_field_scores fz a r).state :=
    mul_nonneg (by norm_num) hs.1
  have c4 : (0:ℚ) ≤ 0.1 * (calculate_field_scores fz a r).address :=
    mul_nonneg (by norm_num) ha.1
  exact add_nonneg (add_nonneg (add_nonneg c1 c2) c3) c4

/-! ### Claim C6 -/

/-- C6: per-field scoring.  The DOB score is exactly 0 or 1, never
fractional: it is exactly 1 when both (stripped) DOB strings are non-blank
and equal, and exactly 0 whenever they differ (and also when either is
blank).  A field blank (after strip) on either side scores exactly 0 while
remaining present in the score map (the `FieldScores` structure always
carries all four fields); and, given the rapidfuzz range guarantee, every
produced field score lies in `[0, 1]`. -/
theorem calculate_field_scores_spec (fz : FuzzPrimitives) (hfz : fz.InRange)
    (a r : Record) :
    ((calculate_field_scores fz a r).dob = 0 ∨
        (calculate_field_scores fz a r).dob = 1) ∧
      (pyStrip (a.name.getD "") = "" ∨ pyStrip (r.name.getD "") = "" →
        (calculate_field_scores fz a r).name = 0) ∧
      (pyStrip (a.dob.getD "") = "" ∨ pyStrip (r.dob.getD "") = "" →
        (calculate_field_scores fz a r).dob = 0) ∧
      (pyStrip (a.state.getD "") = "" ∨ pyStrip (r.state.getD "") = "" →
        (calculate_field_scores fz a r).state = 0) ∧
      (pyStrip (a.address.getD "") = "" ∨ pyStrip (r.address.getD "") = "" →
        (calculate_field_scores fz a r).address = 0) ∧
      (pyStrip (a.dob.getD "") ≠ "" → pyStrip (r.dob.getD "") ≠ "" →
        pyStrip (a.dob.getD "") = pyStrip (r.dob.getD "") →
        (calculate_field_scores fz a r).dob = 1) ∧
      (pyStrip (a.dob.getD "") ≠ pyStrip (r.dob.getD "") →
        (calculate_field_scores fz a r).dob = 0) ∧
      (0 ≤ (calculate_field_scores fz a r).name ∧
        (calculate_field_scores fz a r).name ≤ 1) ∧
      (0 ≤ (calculate_field_scores fz a r).dob ∧
        (calculate_field_scores fz a r).dob ≤ 1) ∧
      (0 ≤ (calculate_field_scores fz a r).state ∧
        (calculate_field_scores fz a r).state ≤ 1) ∧
      (0 ≤ (calculate_field_scores fz a r).address ∧
        (calculate_field_scores fz a r).address ≤ 1) := by
  obtain ⟨hn, hd, hs, ha⟩ := calculate_field_scores_bounds fz hfz a r
  refine ⟨?_, ?_, ?_, ?_, ?_, ?_, ?_, hn, hd, hs, ha⟩
  · simp only [calculate_field_scores]
    split_ifs <;> simp
  · intro h
    simp only [calculate_field_scores]
    rw [if_neg]
    rintro ⟨h1, h2⟩
    rcases h with h | h
    · exact h1 h
    · exact h2 h
  · intro h
    simp only [calculate_field_scores]
    rw [if_neg]
    rintro ⟨h1, h2⟩
    rcases h with h | h
    · exact h1 h
    · exact h2 h
  · intro h
    simp only [calculate_field_scores]
    rw [if_neg]
    rintro ⟨h1, h2⟩
    rcases h with h | h
    · exact h1 ((pyUpper_empty_iff _).mpr h)
    · exact h2 ((pyUpper_empty_iff _).mpr h)
  · intro h
    simp only [calculate_field_scores]
    rw [if_neg]
    rintro ⟨h1, h2⟩
    rcases h with h | h
    · exact h1 h
    · exact h2 h
  · intro h1 h2 h3
    simp only [calculate_field_scores]
    rw [if_pos ⟨h1, h2⟩, if_pos h3]
  · intro hne
    simp only [calculate_field_scores]
    by_cases hb : pyStrip (a.dob.getD "") ≠ "" ∧ pyStrip (r.dob.getD "") ≠ ""
    · rw [if_pos hb, if_neg hne]
    · rw [if_neg hb]

/-- Record with only a DOB, used to exercise the C6 witness on the
equal-DOB branch. -/
def wDob : Record := { dob := some "1985-03-15" }

/-- Witness for C6 at a concrete matcher and a record pair with equal
non-blank DOB strings. -/
theorem calculate_field_scores_spec_witness :
    halfFuzz.InRange ∧
      (((calculate_field_scores halfFuzz wDob wDob).dob = 0 ∨
          (calculate_field_scores halfFuzz wDob wDob).dob = 1) ∧
        (pyStrip (wDob.name.getD "") = "" ∨ pyStrip (wDob.name.getD "") = "" →
          (calculate_field_scores halfFuzz wDob wDob).name = 0) ∧
        (pyStrip (wDob.dob.getD "") = "" ∨ pyStrip (wDob.dob.getD "") = "" →
          (calculate_field_scores halfFuzz wDob wDob).dob = 0) ∧
        (pyStrip (wDob.state.getD "") = "" ∨ pyStrip (wDob.state.getD "") = "" →
          (calculate_field_scores halfFuzz wDob wDob).state = 0) ∧
        (pyStrip (wDob.address.getD "") = "" ∨ pyStrip (wDob.address.getD "") = "" →
          (calculate_field_scores halfFuzz wDob wDob).address = 0) ∧
        (pyStrip (wDob.dob.getD "") ≠ "" → pyStrip (wDob.dob.getD "") ≠ "" →
          pyStrip (wDob.dob.getD "") = pyStrip (wDob.dob.getD "") →
          (calculate_field_scores halfFuzz wDob wDob).dob = 1) ∧
        (pyStrip (wDob.dob.getD "") ≠ pyStrip (wDob.dob.getD "") →
          (calculate_field_scores halfFuzz wDob wDob).dob = 0) ∧
        (0 ≤ (calculate_field_scores halfFuzz wDob wDob).name ∧
          (calculate_field_scores halfFuzz wDob wDob).name ≤ 1) ∧
        (0 ≤ (calculate_field_scores halfFuzz wDob wDob).dob ∧
          (calculate_field_scores halfFuzz wDob wDob).dob ≤ 1) ∧
        (0 ≤ (calculate_field_scores halfFuzz wDob wDob).state ∧
          (calculate_field_scores halfFuzz wDob wDob).state ≤ 1) ∧
        (0 ≤ (calculate_field_scores halfFuzz wDob wDob).address ∧
          (calculate_field_scores halfFuzz wDob wDob).address ≤ 1)) :=
  ⟨halfFuzz_inRange, calculate_field_scores_spec halfFuzz halfFuzz_inRange wDob wDob⟩

/-! ### Claim C5 -/

/-- C5: the confidence reported by `link` is the maximum composite score
over the pool (for a non-empty pool), and exactly 0 with `matched = false`
and `best_match = none` for the empty pool. -/
theorem link_confidence_is_max (fz : FuzzPrimitives) (hfz : fz.InRange)
    (cfg : LinkageConfig) (a : Record) (l : List Record) :
    (l ≠ [] → (l.map (compositeScore fz a)).max? =
      some ((link fz cfg a l).confidence)) ∧
      (l = [] → (link fz cfg a l).confidence = 0 ∧
        (link fz cfg a l).matched = false ∧
        (link fz cfg a l).best_match = none) := by
  constructor
  · intro hl
    match l, hl with
    | r :: t, _ =>
      rw [link_confidence_eq fz cfg a (r :: t) (by simp)]
      have h0 : (poolScan fz a (r :: t)).2.1 =
          ((r :: t).map (compositeScore fz a)).foldl max 0 :=
        scan_score_eq_foldl_max fz a (r :: t) (none, 0, none)
      rw [h0]
      have hc : max 0 (compositeScore fz a r) = compositeScore fz a r :=
        max_eq_right (compositeScore_nonneg fz hfz a r)
      simp only [List.map_cons, List.foldl_cons, hc]
      rfl
  · intro hl
    subst hl
    exact ⟨rfl, rfl, rfl⟩

/-- Witness for C5 on a singleton pool. -/
theorem link_confidence_is_max_witness :
    halfFuzz.InRange ∧
      ([({} : Record)].map (compositeScore halfFuzz {})).max? =
        some ((link halfFuzz {} {} [({} : Record)]).confidence) :=
  ⟨halfFuzz_inRange,
    (link_confidence_is_max halfFuzz halfFuzz_inRange {} {} [({} : Record)]).1
      (by simp)⟩

/-! ### Claim C7 -/

/-- C7: for a non-empty pool, `requires_review` is set exactly when the best
composite score lies in `[manual_review_min, manual_review_max)` or strictly
more than one pool record has a name field score above 0.8. -/
theorem link_requires_review_iff (fz : FuzzPrimitives) (cfg : LinkageConfig)
    (a : Record) (l : List Record) (hl : l ≠ []) :
    (link fz cfg a l).requires_review = true ↔
      ((cfg.manual_review_min ≤ (link fz cfg a l).confidence ∧
          (link fz cfg a l).confidence < cfg.manual_review_max) ∨
        1 < (l.filter
          (fun r => decide (0.8 < (calculate_field_scores fz a r).name))).length) := by
  rw [link_confidence_eq fz cfg a l hl]
  simp only [link, if_neg hl, decide_eq_true_eq]

/-- Witness for C7 on a singleton pool. -/
theorem link_requires_review_iff_witness :
    ([({} : Record)] ≠ ([] : List Record)) ∧
      ((link halfFuzz {} {} [({} : Record)]).requires_review = true ↔
        ((({} : LinkageConfig)).manual_review_min ≤
            (link halfFuzz {} {} [({} : Record)]).confidence ∧
          (link halfFuzz {} {} [({} : Record)]).confidence <
            (({} : LinkageConfig)).manual_review_max) ∨
        1 < ([({} : Record)].filter
          (fun r => decide (0.8 < (calculate_field_scores halfFuzz {} r).name))).length) :=
  ⟨by simp, link_requires_review_iff halfFuzz {} {} [({} : Record)] (by simp)⟩

/-! ### Helper lemmas about the fuzzy matcher -/

theorem descBy_trans (a b c : String × ℚ) (h1 : decide (b.2 ≤ a.2) = true)
    (h2 : decide (c.2 ≤ b.2) = true) : decide (c.2 ≤ a.2) = true := by
  simp only [decide_eq_true_eq] at h1 h2 ⊢
  exact le_trans h2 h1

theorem descBy_total (a b : String × ℚ) :
    (decide (b.2 ≤ a.2) || decide (a.2 ≤ b.2)) = true := by
  simp only [Bool.or_eq_true, decide_eq_true_eq]
  exact le_total _ _

theorem matchesList_mem_threshold (fz : FuzzPrimitives) (query : String)
    (candidates : List String) (threshold : ℚ) :
    ∀ p ∈ matchesList fz query candidates threshold, threshold ≤ p.2 := by
  intro p hp
  simp only [matchesList, List.mem_filterMap] at hp
  obtain ⟨c, -, hc⟩ := hp
  by_cases h : threshold ≤ fz.token_set_ratio (pyLower query) (pyLower c)
  · rw [if_pos h] at hc
    cases hc
    exact h
  · rw [if_neg h] at hc
    cases hc

theorem sortedMatches_perm (fz : FuzzPrimitives) (query : String)
    (candidates : List String) (threshold : ℚ) :
    (sortedMatches fz query candidates threshold).Perm
      (matchesList fz query candidates threshold) :=
  List.mergeSort_perm ..

theorem sortedMatches_sorted (fz : FuzzPrimitives) (query : String)
    (candidates : List String) (threshold : ℚ) :
    (sortedMatches fz query candidates threshold).Pairwise
      (fun p q => q.2 ≤ p.2) :=
  (List.sorted_mergeSort descBy_trans descBy_total _).imp
    (fun h => of_decide_eq_true h)

theorem sortedMatches_stable (fz : FuzzPrimitives) (query : String)
    (candidates : List String) (threshold : ℚ) (s : ℚ) :
    (sortedMatches fz query candidates threshold).filter
        (fun p => decide (p.2 = s)) =
      (matchesList fz query candidates threshold).filter
        (fun p => decide (p.2 = s)) := by
  have hpw : ((matchesList fz query candidates threshold).filter
      (fun p => decide (p.2 = s))).Pairwise
      (fun a b => (fun p q : String × ℚ => decide (q.2 ≤ p.2)) a b = true) := by
    apply List.pairwise_of_forall_mem_list
    intro a ha b hb
    rw [List.mem_filter] at ha hb
    have ha2 : a.2 = s := of_decide_eq_true ha.2
    have hb2 : b.2 = s := of_decide_eq_true hb.2
    simp [ha2, hb2]
  have hsub : ((matchesList fz query candidates threshold).filter
      (fun p => decide (p.2 = s))).Sublist
      (sortedMatches fz query candidates threshold) :=
    List.sublist_mergeSort descBy_trans descBy_total hpw (List.filter_sublist _)
  have hsub2 : ((matchesList fz query candidates threshold).filter
      (fun p => decide (p.2 = s))).Sublist
      ((sortedMatches fz query candidates threshold).filter
        (fun p => decide (p.2 = s))) := by
    have h2 := hsub.filter (fun p => decide (p.2 = s))
    rwa [List.filter_filter, show
      (fun (a : String × ℚ) => decide (a.2 = s) && decide (a.2 = s)) =
        (fun a => decide (a.2 = s)) from funext (fun a => Bool.and_self _)] at h2
  have hlen : ((sortedMatches fz query candidates threshold).filter
      (fun p => decide (p.2 = s))).length =
      ((matchesList fz query candidates threshold).filter
        (fun p => decide (p.2 = s))).length :=
    ((sortedMatches_perm fz query candidates threshold).filter _).length_eq
  exact (hsub2.eq_of_length hlen.symm).symm

/-! ### Claim C9 -/

/-- C9: `fuzzy_match` short-circuits to `[]` on an empty query or candidate
list; otherwise it raises `FuzzyMatchAmbiguousError` exactly when the number
of threshold-eligible matches scoring strictly above 0.8 exceeds the
ambiguity threshold, and a returned list is a permutation of the thresholded
matches, sorted descending by score, every returned score reaches the
threshold, and each tie class appears in input order (stable sort). -/
theorem fuzzy_match_spec (fz : FuzzPrimitives) (amb : ℕ) (query : String)
    (candidates : List String) (threshold : ℚ) :
    ((query = "" ∨ candidates = []) →
        fuzzy_match fz amb query candidates threshold = .ok []) ∧
      (query ≠ "" → candidates ≠ [] →
        ((∃ e, fuzzy_match fz amb query candidates threshold = .error e) ↔
          amb < ((matchesList fz query candidates threshold).filter
            (fun p => decide ((0.8 : ℚ) < p.2))).length) ∧
        (∀ res, fuzzy_match fz amb query candidates threshold = .ok res →
          res.Perm (matchesList fz query candidates threshold) ∧
          res.Pairwise (fun p q => q.2 ≤ p.2) ∧
          (∀ p ∈ res, threshold ≤ p.2) ∧
          (∀ s : ℚ, res.filter (fun p => decide (p.2 = s)) =
            (matchesList fz query candidates threshold).filter
              (fun p => decide (p.2 = s))))) := by
  constructor
  · intro h
    simp only [fuzzy_match, if_pos h]
  · intro hq hc
    have hg : ¬(query = "" ∨ candidates = []) := by
      rintro (h | h)
      exacts [hq h, hc h]
    have hlen : ((sortedMatches fz query candidates threshold).filter
        (fun m => decide ((0.8 : ℚ) < m.2))).length =
        ((matchesList fz query candidates threshold).filter
          (fun m => decide ((0.8 : ℚ) < m.2))).length :=
      ((sortedMatches_perm fz query candidates threshold).filter _).length_eq
    constructor
    · constructor
      · rintro ⟨e, he⟩
        simp only [fuzzy_match, if_neg hg] at he
        split_ifs at he with hcond
        rwa [hlen] at hcond
      · intro hcount
        have hcond : amb < ((sortedMatches fz query candidates threshold).filter
            (fun m => decide ((0.8 : ℚ) < m.2))).length := by rwa [hlen]
        refine ⟨⟨((sortedMatches fz query candidates threshold).filter
            (fun m => decide ((0.8 : ℚ) < m.2))).map Prod.fst,
          ((sortedMatches fz query candidates threshold).filter
            (fun m => decide ((0.8 : ℚ) < m.2))).map Prod.snd⟩, ?_⟩
        simp only [fuzzy_match, if_neg hg]
        rw [if_pos hcond]
    · intro res hres
      simp only [fuzzy_match, if_neg hg] at hres
      by_cases hcond : amb < ((sortedMatches fz query candidates threshold).filter
          (fun m => decide ((0.8 : ℚ) < m.2))).length
      · rw [if_pos hcond] at hres
        cases hres
      · rw [if_neg hcond] at hres
        cases hres
        refine ⟨sortedMatches_perm .., sortedMatches_sorted .., ?_,
          fun s => sortedMatches_stable fz query candidates threshold s⟩
        intro p hp
        have hp' : p ∈ matchesList fz query candidates threshold := by
          simp only [sortedMatches] at hp
          exact List.mem_mergeSort.mp hp
        exact matchesList_mem_threshold fz query candidates threshold p hp'

/-- Witness for C9 on the early-return branch. -/
theorem fuzzy_match_spec_witness :
    fuzzy_match halfFuzz 10 "" ["x"] 0.5 = .ok [] :=
  (fuzzy_match_spec halfFuzz 10 "" ["x"] 0.5).1 (Or.inl rfl)

end GunRegistryAdapter
